import Mathlib

/-!
Verification of the value-based DQN / Double-DQN core of the rl-code
repository: batch target computation (`dqn.py`, `double_dqn.py`), the
target-network updater, the checkpoint-save callback, the replay buffer, the
agent driver (`utils/nnq_agent.py`) and the Flappy Bird frame-stacking
wrapper (`utils/flappybird_wrapper.py`).

Tensors over a batch are embedded as Lean lists of rationals; observations
are an abstract type `Obs`; a Q-network is a function `Obs → List ℚ` giving
the per-action value row for one observation.
-/

namespace RLCode

/-- A sampled batch of transitions, with the fields `DQNPolicy.update`
(dqn.py) reads from it: observations, actions, rewards, done flags (0/1, as
the code loads them into an integer tensor), next observations, and — for a
prioritized buffer — sampled indexes and importance-sampling weights. -/
structure Batch (Obs : Type) where
  obss : List Obs
  acts : List ℕ
  rews : List ℚ
  dones : List ℕ
  next_obss : List Obs
  indexes : List ℕ
  weights : List ℚ

/-- Maximum over the last dimension of a per-action value row, as
`tensor.max(-1)[0]` computes it for a nonempty row. -/
def tensorMax : List ℚ → ℚ
  | [] => 0
  | x :: xs => xs.foldl max x

/-- Index of a maximal entry of a per-action value row, as
`tensor.argmax(-1)` computes it (some maximal index; here the first). -/
def argmaxIdx : List ℚ → ℕ
  | [] => 0
  | [_] => 0
  | x :: y :: l =>
    let j := argmaxIdx (y :: l)
    if (y :: l).getD j 0 ≤ x then 0 else j + 1

theorem argmaxIdx_lt_length : ∀ (l : List ℚ), l ≠ [] → argmaxIdx l < l.length
  | [], h => absurd rfl h
  | [_], _ => Nat.zero_lt_one
  | x :: y :: l, _ => by
    show (if (y :: l).getD (argmaxIdx (y :: l)) 0 ≤ x then 0 else argmaxIdx (y :: l) + 1) <
      (x :: y :: l).length
    split
    · simp
    · have := argmaxIdx_lt_length (y :: l) (by simp)
      simpa using Nat.succ_lt_succ this

theorem argmaxIdx_is_max : ∀ (l : List ℚ), ∀ k < l.length,
    l.getD k 0 ≤ l.getD (argmaxIdx l) 0
  | [], k, hk => by simp at hk
  | [x], k, hk => by
    have hk0 : k = 0 := by simp at hk; exact hk
    subst hk0
    simp [argmaxIdx]
  | x :: y :: l, k, hk => by
    have ih := argmaxIdx_is_max (y :: l)
    show (x :: y :: l).getD k 0 ≤
      (x :: y :: l).getD
        (if (y :: l).getD (argmaxIdx (y :: l)) 0 ≤ x then 0 else argmaxIdx (y :: l) + 1) 0
    split
    · rename_i hle
      match k with
      | 0 => simp
      | k + 1 =>
        have hk' : k < (y :: l).length := by simpa using hk
        calc (x :: y :: l).getD (k + 1) 0 = (y :: l).getD k 0 := by simp
          _ ≤ (y :: l).getD (argmaxIdx (y :: l)) 0 := ih k hk'
          _ ≤ x := hle
          _ = (x :: y :: l).getD 0 0 := by simp
    · rename_i hlt
      push_neg at hlt
      match k with
      | 0 =>
        calc (x :: y :: l).getD 0 0 = x := by simp
          _ ≤ (y :: l).getD (argmaxIdx (y :: l)) 0 := le_of_lt hlt
          _ = (x :: y :: l).getD (argmaxIdx (y :: l) + 1) 0 := by simp
      | k + 1 =>
        have hk' : k < (y :: l).length := by simpa using hk
        calc (x :: y :: l).getD (k + 1) 0 = (y :: l).getD k 0 := by simp
          _ ≤ (y :: l).getD (argmaxIdx (y :: l)) 0 := ih k hk'
          _ = (x :: y :: l).getD (argmaxIdx (y :: l) + 1) 0 := by simp

namespace DQNPolicy

/-- The target-value tensor computed inside `DQNPolicy.update`
(dqn.py lines 53-62), exactly as the source computes it: the `rews` and
`dones` tensors are both built from `batch.acts` (the action field), and
`qval_targ = rews + (1 - dones) * gamma * qval_max` with
`qval_max = network(next_obss).max(-1)[0]`. -/
def qval_targ {Obs : Type} (Q : Obs → List ℚ) (gamma : ℚ) (b : Batch Obs) : List ℚ :=
  let rews : List ℚ := b.acts.map (fun a => (a : ℚ))
  let dones : List ℕ := b.acts
  let qval_max : List ℚ := b.next_obss.map (fun o => tensorMax (Q o))
  (rews.zip ((dones.zip qval_max).map (fun p => (1 - (p.1 : ℚ)) * gamma * p.2))).map
    (fun p => p.1 + p.2)

/-- The vanilla-DQN target as the spec (section 4.4) states it, with `rews`
and `dones` taken from the reward and done fields of the batch; written to
be compared with `qval_targ` above for the refinement check of claim C1. -/
def qval_targ_spec {Obs : Type} (Q : Obs → List ℚ) (gamma : ℚ) (b : Batch Obs) : List ℚ :=
  let qval_max : List ℚ := b.next_obss.map (fun o => tensorMax (Q o))
  (b.rews.zip ((b.dones.zip qval_max).map (fun p => (1 - (p.1 : ℚ)) * gamma * p.2))).map
    (fun p => p.1 + p.2)

end DQNPolicy

/-- A network mapping each (abstract) observation to a fixed value row;
used for concrete evaluations. -/
def constQ (row : List ℚ) : ℕ → List ℚ := fun _ => row

/-- A concrete one-transition batch with action 1, reward 0, done 0. -/
def bugBatch : Batch ℕ :=
  { obss := [0], acts := [1], rews := [0], dones := [0], next_obss := [0],
    indexes := [0], weights := [1] }

/-- C1: for every sampled batch, the vanilla DQN update is claimed to
compute the target as `reward + (1-done) * gamma * max_a Q(next_obs, a)`
with reward and done taken from the reward and done fields. The source
(dqn.py lines 53-54) instead builds both tensors from `batch.acts`: on a
batch with action 1, reward 0, done 0, `Q(next) = [3, 4]` and `gamma = 1/2`
the code produces target `[1]` while the claimed formula gives `[2]`. -/
theorem dqn_targ_uses_act_field :
    DQNPolicy.qval_targ (constQ [3, 4]) (1/2) bugBatch = [1] ∧
      DQNPolicy.qval_targ_spec (constQ [3, 4]) (1/2) bugBatch = [2] := by
  constructor <;> norm_num [DQNPolicy.qval_targ, DQNPolicy.qval_targ_spec, bugBatch,
    constQ, tensorMax, List.zip]

namespace DoubleDQNPolicy

/-- `DoubleDQNPolicy.compute_target_q` (double_dqn.py lines 34-44):
`acts_star = network(next_obss).argmax(-1)`, the greedy actions of the
online network; `qval_max = target_network(next_obss).gather(1, acts_star)`,
their evaluation by the target network; and
`qval_targ = rews + (1 - dones) * gamma * qval_max`. -/
def compute_target_q {Obs : Type} (Qon Qtar : Obs → List ℚ) (gamma : ℚ)
    (next_obss : List Obs) (rews : List ℚ) (dones : List ℕ) : List ℚ :=
  let acts_star : List ℕ := next_obss.map (fun o => argmaxIdx (Qon o))
  let qval_max : List ℚ := (next_obss.zip acts_star).map (fun p => (Qtar p.1).getD p.2 0)
  (rews.zip ((dones.zip qval_max).map (fun p => (1 - (p.1 : ℚ)) * gamma * p.2))).map
    (fun p => p.1 + p.2)

end DoubleDQNPolicy

/-- C2: the Double-DQN target decouples selection from evaluation: for every
batch entry i there is an action a that maximizes the online network's value
row at the i-th next observation, and the computed target at i equals
`reward_i + (1 - done_i) * gamma * Q_target(next_obs_i, a)`. -/
theorem compute_target_q_decouples {Obs : Type} (Qon Qtar : Obs → List ℚ) (gamma : ℚ)
    (next_obss : List Obs) (rews : List ℚ) (dones : List ℕ) (i : ℕ)
    (hr : rews.length = next_obss.length) (hd : dones.length = next_obss.length)
    (hi : i < next_obss.length)
    (hne : Qon (next_obss.get ⟨i, hi⟩) ≠ []) :
    ∃ a < (Qon (next_obss.get ⟨i, hi⟩)).length,
      (∀ k < (Qon (next_obss.get ⟨i, hi⟩)).length,
        (Qon (next_obss.get ⟨i, hi⟩)).getD k 0 ≤ (Qon (next_obss.get ⟨i, hi⟩)).getD a 0) ∧
      (DoubleDQNPolicy.compute_target_q Qon Qtar gamma next_obss rews dones).getD i 0 =
        rews.getD i 0 + (1 - (dones.getD i 0 : ℚ)) * gamma *
          (Qtar (next_obss.get ⟨i, hi⟩)).getD (argmaxIdx (Qon (next_obss.get ⟨i, hi⟩))) 0 := by
  refine ⟨argmaxIdx (Qon (next_obss.get ⟨i, hi⟩)),
    argmaxIdx_lt_length _ hne, argmaxIdx_is_max _, ?_⟩
  have hlen : (DoubleDQNPolicy.compute_target_q Qon Qtar gamma next_obss rews dones).length =
      next_obss.length := by
    simp [DoubleDQNPolicy.compute_target_q, hr, hd]
  rw [List.getD_eq_getElem _ 0 (by omega),
    List.getD_eq_getElem _ 0 (by omega), List.getD_eq_getElem _ 0 (by omega)]
  simp [DoubleDQNPolicy.compute_target_q, List.getElem_zip, List.get_eq_getElem]

/-- Witness for C2 at a concrete input: one next observation, online row
`[1, 5, 3]` (maximizer a = 1), target row `[10, 20, 30]`, reward 2, done 0,
gamma 1/2. -/
theorem compute_target_q_decouples_witness :
    ∃ a < (constQ [1, 5, 3] ((([0] : List ℕ)).get ⟨0, by norm_num⟩)).length,
      (∀ k < (constQ [1, 5, 3] ((([0] : List ℕ)).get ⟨0, by norm_num⟩)).length,
        (constQ [1, 5, 3] ((([0] : List ℕ)).get ⟨0, by norm_num⟩)).getD k 0 ≤
          (constQ [1, 5, 3] ((([0] : List ℕ)).get ⟨0, by norm_num⟩)).getD a 0) ∧
      (DoubleDQNPolicy.compute_target_q (constQ [1, 5, 3]) (constQ [10, 20, 30]) (1/2)
          [0] [2] [0]).getD 0 0 =
        ([2] : List ℚ).getD 0 0 + (1 - ((([0] : List ℕ)).getD 0 0 : ℚ)) * (1/2) *
          (constQ [10, 20, 30] ((([0] : List ℕ)).get ⟨0, by norm_num⟩)).getD
            (argmaxIdx (constQ [1, 5, 3] ((([0] : List ℕ)).get ⟨0, by norm_num⟩))) 0 :=
  compute_target_q_decouples (constQ [1, 5, 3]) (constQ [10, 20, 30]) (1/2)
    [0] [2] [0] 0 (by norm_num) (by norm_num) (by norm_num) (by simp [constQ])

/-- The mutable parameter state of a `DoubleDQNPolicy`: online network
parameters, target network parameters (each flattened to one list of
scalars), and the update counter (double_dqn.py lines 27-32; the constructor
copies the online state dict into the target and sets the counter to 0). -/
structure DoubleDQNState where
  network : List ℚ
  target_network : List ℚ
  update_count : ℕ

namespace DoubleDQNPolicy

/-- `DoubleDQNPolicy.soft_update_target` (double_dqn.py lines 56-62): for
each zipped (target, local) parameter pair, overwrite the target with
`tau * local + (1 - tau) * target`. -/
def soft_update_target (tau : ℚ) (s : DoubleDQNState) : DoubleDQNState :=
  { s with target_network :=
      (s.target_network.zip s.network).map (fun p => tau * p.2 + (1 - tau) * p.1) }

/-- Modelled from the spec: the base class `Policy.update` lives in
utils/misc.py, which is not in the source tree. Per the spec (section 4.4)
it samples one batch, computes a loss and performs one gradient step on the
online network through an optimizer built over the online network's
parameters only (double_dqn.py line 90), so it is modelled as an arbitrary
transformation `grad` of the online parameters that leaves the target
parameters and the counter alone. -/
def base_update (grad : List ℚ → List ℚ) (s : DoubleDQNState) : DoubleDQNState :=
  { s with network := grad s.network }

/-- `DoubleDQNPolicy.update` (double_dqn.py lines 46-54): run the base
update (one gradient step), increment `update_count`, and when it reaches
`target_update_freq`, subtract the frequency and run `soft_update_target`. -/
def update (grad : List ℚ → List ℚ) (tau : ℚ) (target_update_freq : ℕ)
    (s : DoubleDQNState) : DoubleDQNState :=
  let s1 := base_update grad s
  let s2 := { s1 with update_count := s1.update_count + 1 }
  if target_update_freq ≤ s2.update_count then
    soft_update_target tau
      { s2 with update_count := s2.update_count - target_update_freq }
  else s2

/-- `n` successive calls of `update`. -/
def updateN (grad : List ℚ → List ℚ) (tau : ℚ) (target_update_freq : ℕ) :
    ℕ → DoubleDQNState → DoubleDQNState
  | 0, s => s
  | n + 1, s => update grad tau target_update_freq (updateN grad tau target_update_freq n s)

end DoubleDQNPolicy

theorem grad_iterate_length (grad : List ℚ → List ℚ)
    (hg : ∀ p, (grad p).length = p.length) (n : ℕ) (p : List ℚ) :
    (grad^[n] p).length = p.length := by
  induction n with
  | zero => simp
  | succ n ih => rw [Function.iterate_succ_apply', hg, ih]

theorem soft_update_target_tau_one (s : DoubleDQNState)
    (h : s.target_network.length = s.network.length) :
    (DoubleDQNPolicy.soft_update_target 1 s).target_network = s.network := by
  show (s.target_network.zip s.network).map (fun p => 1 * p.2 + (1 - 1) * p.1) = s.network
  have : (s.target_network.zip s.network).map (fun p => 1 * p.2 + (1 - 1) * p.1) =
      (s.target_network.zip s.network).map Prod.snd := by
    simp
  rw [this, List.map_snd_zip _ _ (le_of_eq h.symm)]

theorem update_below_freq (grad : List ℚ → List ℚ) (tau : ℚ) (freq : ℕ)
    (s : DoubleDQNState) (h : s.update_count + 1 < freq) :
    DoubleDQNPolicy.update grad tau freq s =
      { network := grad s.network, target_network := s.target_network,
        update_count := s.update_count + 1 } := by
  simp only [DoubleDQNPolicy.update, DoubleDQNPolicy.base_update]
  rw [if_neg (by omega)]

theorem update_at_boundary (grad : List ℚ → List ℚ) (tau : ℚ) (freq : ℕ)
    (s : DoubleDQNState) (h : s.update_count + 1 = freq) :
    DoubleDQNPolicy.update grad tau freq s =
      DoubleDQNPolicy.soft_update_target tau
        { network := grad s.network, target_network := s.target_network,
          update_count := 0 } := by
  simp only [DoubleDQNPolicy.update, DoubleDQNPolicy.base_update]
  rw [if_pos (by omega)]
  have h0 : s.update_count + 1 - freq = 0 := by omega
  rw [h0]

theorem updateN_before_boundary (grad : List ℚ → List ℚ) (tau : ℚ) (freq : ℕ)
    (s : DoubleDQNState) (h0 : s.update_count = 0) (k : ℕ) (hk : k < freq) :
    DoubleDQNPolicy.updateN grad tau freq k s =
      { network := grad^[k] s.network, target_network := s.target_network,
        update_count := k } := by
  induction k with
  | zero =>
    cases s
    simp_all [DoubleDQNPolicy.updateN]
  | succ k ih =>
    have hk' : k < freq := Nat.lt_of_succ_lt hk
    rw [DoubleDQNPolicy.updateN, ih hk', update_below_freq grad tau freq _ (by simpa using hk)]
    simp [Function.iterate_succ_apply']

/-- C3: with `tau = 1.0`, starting from a state whose update counter is 0
(as the constructor leaves it), the first `target_update_freq - 1` calls of
`DoubleDQNPolicy.update` leave the target network parameters untouched, and
the `target_update_freq`-th call copies the online parameters verbatim into
the target (they are then equal), resetting the counter to 0 so the pattern
repeats every `target_update_freq` calls. -/
theorem hard_update_every_freq (grad : List ℚ → List ℚ) (tau : ℚ) (freq : ℕ)
    (s : DoubleDQNState) (h0 : s.update_count = 0) (hfreq : 0 < freq)
    (htau : tau = 1) (hg : ∀ p, (grad p).length = p.length)
    (hlen : s.target_network.length = s.network.length) :
    (∀ k < freq, (DoubleDQNPolicy.updateN grad tau freq k s).target_network =
        s.target_network) ∧
      (DoubleDQNPolicy.updateN grad tau freq freq s).target_network =
        (DoubleDQNPolicy.updateN grad tau freq freq s).network ∧
      (DoubleDQNPolicy.updateN grad tau freq freq s).update_count = 0 := by
  subst htau
  refine ⟨fun k hk => by rw [updateN_before_boundary grad 1 freq s h0 k hk], ?_⟩
  obtain ⟨m, rfl⟩ : ∃ m, freq = m + 1 := ⟨freq - 1, by omega⟩
  rw [DoubleDQNPolicy.updateN,
    updateN_before_boundary grad 1 (m + 1) s h0 m (by omega),
    update_at_boundary grad 1 (m + 1) _ rfl]
  have hcopy := soft_update_target_tau_one
    ⟨grad (grad^[m] s.network), s.target_network, 0⟩
    (by simpa [grad_iterate_length grad hg, hg] using hlen)
  refine ⟨?_, ?_⟩
  · rw [hcopy]
    rfl
  · rfl

/-- Witness for C3: online `[0]`, target `[7]`, counter 0, `grad` adds 1 to
every parameter, `freq = 2`: the first call leaves the target at `[7]`, the
second makes target and online equal with counter back at 0. -/
theorem hard_update_every_freq_witness :
    (∀ k < 2, (DoubleDQNPolicy.updateN (fun l => l.map (· + 1)) 1 2 k
        ⟨[0], [7], 0⟩).target_network = ([7] : List ℚ)) ∧
      (DoubleDQNPolicy.updateN (fun l => l.map (· + 1)) 1 2 2
          ⟨[0], [7], 0⟩).target_network =
        (DoubleDQNPolicy.updateN (fun l => l.map (· + 1)) 1 2 2
          ⟨[0], [7], 0⟩).network ∧
      (DoubleDQNPolicy.updateN (fun l => l.map (· + 1)) 1 2 2
          ⟨[0], [7], 0⟩).update_count = 0 :=
  hard_update_every_freq (fun l => l.map (· + 1)) 1 2 ⟨[0], [7], 0⟩ rfl
    (by norm_num) rfl (fun p => by simp) (by simp)

/-- C4: for `0 < tau < 1`, one call of `soft_update_target` sets each target
parameter elementwise to `tau * online + (1 - tau) * old_target` (Polyak
averaging). -/
theorem soft_update_target_polyak (tau : ℚ) (ht0 : 0 < tau) (ht1 : tau < 1)
    (s : DoubleDQNState) (i : ℕ) (hit : i < s.target_network.length)
    (hin : i < s.network.length) :
    (DoubleDQNPolicy.soft_update_target tau s).target_network.getD i 0 =
      tau * s.network.getD i 0 + (1 - tau) * s.target_network.getD i 0 := by
  show ((s.target_network.zip s.network).map
      (fun p => tau * p.2 + (1 - tau) * p.1)).getD i 0 = _
  rw [List.getD_eq_getElem _ 0 (by simp; omega), List.getD_eq_getElem _ 0 hin,
    List.getD_eq_getElem _ 0 hit]
  simp [List.getElem_zip]

/-- Witness for C4 on the spec's synthetic 2-parameter network: online
parameters `[2, 2]`, old target `[0, 0]`, `tau = 1/2`; the first new target
parameter is `1/2 * 2 + (1 - 1/2) * 0 = 1`. -/
theorem soft_update_target_polyak_witness :
    (0 : ℚ) < 1/2 ∧ (1/2 : ℚ) < 1 ∧
      (DoubleDQNPolicy.soft_update_target (1/2)
          ⟨[2, 2], [0, 0], 0⟩).target_network.getD 0 0 =
        1/2 * (([2, 2] : List ℚ).getD 0 0) + (1 - 1/2) * (([0, 0] : List ℚ).getD 0 0) ∧
      (DoubleDQNPolicy.soft_update_target (1/2)
          ⟨[2, 2], [0, 0], 0⟩).target_network.getD 0 0 = 1 :=
  ⟨by norm_num, by norm_num,
    soft_update_target_polyak (1/2) (by norm_num) (by norm_num)
      ⟨[2, 2], [0, 0], 0⟩ 0 (by norm_num) (by norm_num),
    by rw [soft_update_target_polyak (1/2) (by norm_num) (by norm_num)
        ⟨[2, 2], [0, 0], 0⟩ 0 (by norm_num) (by norm_num)]; norm_num⟩

/-- C5: target network parameters are mutated only by the target updater:
the gradient step (`base_update`, whose optimizer is built over the online
network's parameters only, double_dqn.py line 90) never changes them; a full
`update` call below the `target_update_freq` boundary leaves them unchanged;
and at the boundary the whole state change goes through
`soft_update_target`. -/
theorem target_mutated_only_by_updater (grad : List ℚ → List ℚ) (tau : ℚ)
    (freq : ℕ) (s : DoubleDQNState) :
    (DoubleDQNPolicy.base_update grad s).target_network = s.target_network ∧
      (s.update_count + 1 < freq →
        (DoubleDQNPolicy.update grad tau freq s).target_network = s.target_network) ∧
      (freq ≤ s.update_count + 1 →
        DoubleDQNPolicy.update grad tau freq s =
          DoubleDQNPolicy.soft_update_target tau
            { network := grad s.network, target_network := s.target_network,
              update_count := s.update_count + 1 - freq }) := by
  refine ⟨rfl, fun h => ?_, fun h => ?_⟩
  · rw [update_below_freq grad tau freq s h]
  · simp only [DoubleDQNPolicy.update, DoubleDQNPolicy.base_update]
    rw [if_pos (by omega)]

/-- Witness for C5: `grad` adds 1 elementwise, `tau = 1/2`, `freq = 2`,
state online `[0]`, target `[7]`, counter 0: the update call below the
boundary leaves the target at `[7]`. -/
theorem target_mutated_only_by_updater_witness :
    (DoubleDQNPolicy.update (fun l => l.map (· + 1)) (1/2) 2
        ⟨[0], [7], 0⟩).target_network = ([7] : List ℚ) :=
  (target_mutated_only_by_updater (fun l => l.map (· + 1)) (1/2) 2
    ⟨[0], [7], 0⟩).2.1 (by norm_num)

/-- Arithmetic mean of a list of scalars, as `.mean()` computes it. -/
def mean (l : List ℚ) : ℚ := l.sum / l.length

namespace DQNPolicy

/-- The predicted action values
`network(obss).gather(1, acts).squeeze()` (dqn.py line 58). -/
def qval_pred {Obs : Type} (Q : Obs → List ℚ) (b : Batch Obs) : List ℚ :=
  (b.obss.zip b.acts).map (fun p => (Q p.1).getD p.2 0)

/-- The per-sample TD errors `td_err = qval_pred - qval_targ`
(dqn.py line 64). -/
def td_err {Obs : Type} (Q : Obs → List ℚ) (gamma : ℚ) (b : Batch Obs) : List ℚ :=
  ((qval_pred Q b).zip (qval_targ Q gamma b)).map (fun p => p.1 - p.2)

/-- The observable outcome of one `DQNPolicy.update` call: the loss value
and the `update_weight(indexes, td_errors)` report sent to a prioritized
buffer (none for a plain buffer). -/
structure UpdateResult where
  loss : ℚ
  reported : Option (List ℕ × List ℚ)

/-- `DQNPolicy.update` (dqn.py lines 47-91), restricted to the effects claim
C6 is about: `weights` is the batch's importance-sampling weight tensor when
`isinstance(buffer, PrioritizedReplayBuffer)` and the scalar `1.0`
otherwise; the loss is `(td_err.pow(2) * weights).mean()`; and only for a
prioritized buffer the per-sample TD errors are reported back through
`buffer.update_weight(batch.indexes, td_err)` after the gradient step. -/
def update_result {Obs : Type} (Q : Obs → List ℚ) (gamma : ℚ) (is_prb : Bool)
    (b : Batch Obs) : UpdateResult :=
  let td := td_err Q gamma b
  let loss := if is_prb then mean ((td.zip b.weights).map (fun p => p.1 ^ 2 * p.2))
    else mean (td.map (fun e => e ^ 2 * 1))
  { loss := loss, reported := if is_prb then some (b.indexes, td) else none }

end DQNPolicy

/-- C6: with a prioritized buffer, `DQNPolicy.update` weights each sample's
squared TD error by its importance-sampling weight in the mean loss and
reports the per-sample TD errors back with the sampled indexes; with a plain
buffer nothing is reported and the weight is the constant 1, so the loss is
the plain mean of squared TD errors. -/
theorem prioritized_update_weighting {Obs : Type} (Q : Obs → List ℚ) (gamma : ℚ)
    (b : Batch Obs) :
    ((DQNPolicy.update_result Q gamma true b).reported =
        some (b.indexes, DQNPolicy.td_err Q gamma b) ∧
      (DQNPolicy.update_result Q gamma true b).loss =
        (((DQNPolicy.td_err Q gamma b).zip b.weights).map
            (fun p => p.1 ^ 2 * p.2)).sum /
          (((DQNPolicy.td_err Q gamma b).zip b.weights).length : ℚ)) ∧
    ((DQNPolicy.update_result Q gamma false b).reported = none ∧
      (DQNPolicy.update_result Q gamma false b).loss =
        ((DQNPolicy.td_err Q gamma b).map (fun e => e ^ 2)).sum /
          ((DQNPolicy.td_err Q gamma b).length : ℚ)) := by
  refine ⟨⟨rfl, ?_⟩, rfl, ?_⟩
  · simp [DQNPolicy.update_result, mean]
  · simp [DQNPolicy.update_result, mean, mul_one]

/-- The persistence outcome of the `save` callback: whether a checkpoint
file was written, and the returned continue-training flag. -/
structure SaveResult where
  persisted : Bool
  keep_training : Bool

namespace DoubleDQN

/-- The `save` callback (double_dqn.py lines 134-141): when the test reward
does not strictly exceed the best-seen reward it returns immediately without
saving; otherwise it persists a cpu snapshot of the policy, and keeps
training unless `max_reward` is set and reached. -/
def save (max_reward : Option ℚ) (best_rew rew : ℚ) : SaveResult :=
  if rew ≤ best_rew then ⟨false, true⟩
  else
    match max_reward with
    | some m => ⟨true, decide (rew < m)⟩
    | none => ⟨true, true⟩

end DoubleDQN

/-- Modelled from the spec: the trainer's best-reward tracking lives in
`train` in utils/misc.py, which is not in the source tree; per the spec
("Best-reward tracking is monotonic: only updates on strict improvement")
the best-seen reward is replaced by the test reward exactly when the latter
is strictly larger. -/
def update_best (best_rew rew : ℚ) : ℚ := if best_rew < rew then rew else best_rew

/-- C7: a checkpoint is persisted if and only if the test reward strictly
exceeds the best-seen reward (the `save` callback returns without saving
whenever `rew <= best_rew`), and the best-reward tracker changes only on
strict improvement, in which case it becomes the new reward. -/
theorem checkpoint_only_on_strict_improvement (max_reward : Option ℚ)
    (best_rew rew : ℚ) :
    ((DoubleDQN.save max_reward best_rew rew).persisted = true ↔ best_rew < rew) ∧
      (update_best best_rew rew ≠ best_rew → best_rew < rew) ∧
      (best_rew < rew → update_best best_rew rew = rew) := by
  refine ⟨?_, fun h => ?_, fun h => ?_⟩
  · by_cases h : rew ≤ best_rew
    · simp [DoubleDQN.save, h, not_lt.mpr h]
    · cases max_reward <;> simp [DoubleDQN.save, h, lt_of_not_le h]
  · by_contra hlt
    exact h (by simp [update_best, hlt])
  · simp [update_best, h]

/-- Witness for C7 at best-seen reward 1 and test reward 2 with no
`max_reward` cap: the checkpoint is persisted exactly because `1 < 2`, and
the best-reward tracker moves to 2. -/
theorem checkpoint_only_on_strict_improvement_witness :
    ((DoubleDQN.save none 1 2).persisted = true ↔ (1 : ℚ) < 2) ∧
      update_best 1 2 = 2 :=
  ⟨(checkpoint_only_on_strict_improvement none 1 2).1,
    (checkpoint_only_on_strict_improvement none 1 2).2.2 (by norm_num)⟩

/-- Modelled from the spec: `ReplayBuffer` lives in utils/buffer.py, which
is not in the source tree. Spec sections 3 and 4.1: a fixed-capacity
circular store of transitions with a write cursor and a fill count. The
store maps slot indexes to their content (`none` for a never-written
slot). -/
structure ReplayBuffer (α : Type) where
  capacity : ℕ
  cursor : ℕ
  size : ℕ
  store : ℕ → Option α

/-- A freshly created, empty buffer. -/
def ReplayBuffer.empty (α : Type) (capacity : ℕ) : ReplayBuffer α :=
  ⟨capacity, 0, 0, fun _ => none⟩

/-- Modelled from the spec: `add(transition)` inserts at the cursor,
advances the cursor circularly (modulo capacity), and increments the fill
count up to capacity, silently overwriting the oldest entry once full. -/
def ReplayBuffer.add {α : Type} (b : ReplayBuffer α) (t : α) : ReplayBuffer α :=
  { b with
    store := fun i => if i = b.cursor then some t else b.store i
    cursor := (b.cursor + 1) % b.capacity
    size := min (b.size + 1) b.capacity }

/-- Insert the transitions `f 0, f 1, ..., f (n-1)` in order. -/
def ReplayBuffer.addSeq {α : Type} (f : ℕ → α) : ℕ → ReplayBuffer α → ReplayBuffer α
  | 0, b => b
  | n + 1, b => (ReplayBuffer.addSeq f n b).add (f n)

theorem mod_ne_of_window (C j n : ℕ) (hj : j < n) (hs : n < j + C) :
    j % C ≠ n % C := by
  intro h
  have hd : C ∣ n - j := (Nat.modEq_iff_dvd' (le_of_lt hj)).mp h
  have := Nat.le_of_dvd (by omega) hd
  omega

theorem addSeq_invariant {α : Type} (f : ℕ → α) (C : ℕ) (hC : 0 < C) (n : ℕ) :
    (ReplayBuffer.addSeq f n (ReplayBuffer.empty α C)).capacity = C ∧
    (ReplayBuffer.addSeq f n (ReplayBuffer.empty α C)).cursor = n % C ∧
    (ReplayBuffer.addSeq f n (ReplayBuffer.empty α C)).size = min n C ∧
    (∀ j, j < n → n ≤ j + C →
      (ReplayBuffer.addSeq f n (ReplayBuffer.empty α C)).store (j % C) = some (f j)) ∧
    (∀ i v, (ReplayBuffer.addSeq f n (ReplayBuffer.empty α C)).store i = some v →
      ∃ j, j < n ∧ n ≤ j + C ∧ j % C = i ∧ v = f j) := by
  induction n with
  | zero =>
    refine ⟨rfl, by simp [ReplayBuffer.addSeq, ReplayBuffer.empty],
      by simp [ReplayBuffer.addSeq, ReplayBuffer.empty],
      fun j hj _ => absurd hj (Nat.not_lt_zero j),
      fun i v hv => absurd hv (by simp [ReplayBuffer.addSeq, ReplayBuffer.empty])⟩
  | succ n ih =>
    obtain ⟨ihcap, ihcur, ihsize, ihfwd, ihbwd⟩ := ih
    refine ⟨by simp [ReplayBuffer.addSeq, ReplayBuffer.add, ihcap], ?_, ?_, ?_, ?_⟩
    · show ((ReplayBuffer.addSeq f n (ReplayBuffer.empty α C)).cursor + 1) %
        (ReplayBuffer.addSeq f n (ReplayBuffer.empty α C)).capacity = (n + 1) % C
      rw [ihcur, ihcap]
      exact (Nat.mod_modEq n C).add_right 1
    · show min ((ReplayBuffer.addSeq f n (ReplayBuffer.empty α C)).size + 1)
        (ReplayBuffer.addSeq f n (ReplayBuffer.empty α C)).capacity = min (n + 1) C
      rw [ihsize, ihcap]
      omega
    · intro j hj hwin
      show (if j % C = (ReplayBuffer.addSeq f n (ReplayBuffer.empty α C)).cursor
        then some (f n) else _) = some (f j)
      rw [ihcur]
      rcases Nat.lt_succ_iff_lt_or_eq.mp hj with hlt | rfl
      · rw [if_neg (mod_ne_of_window C j n hlt (by omega))]
        exact ihfwd j hlt (by omega)
      · rw [if_pos rfl]
    · intro i v hv
      rw [show (ReplayBuffer.addSeq f (n + 1) (ReplayBuffer.empty α C)).store =
        fun i => if i = (ReplayBuffer.addSeq f n (ReplayBuffer.empty α C)).cursor
          then some (f n)
          else (ReplayBuffer.addSeq f n (ReplayBuffer.empty α C)).store i from rfl,
        ihcur] at hv
      by_cases hi : i = n % C
      · refine ⟨n, Nat.lt_succ_self n, by omega, hi.symm, ?_⟩
        simp [hi] at hv
        exact hv.symm
      · simp only [if_neg hi] at hv
        obtain ⟨j, hj, hwin, hmod, hval⟩ := ihbwd i v hv
        refine ⟨j, Nat.lt_succ_of_lt hj, ?_, hmod, hval⟩
        by_contra hbad
        have hnj : n = j + C := by omega
        exact hi (by rw [← hmod, hnj, Nat.add_mod_right])

/-- C8: for every capacity `C > 0` and every sequence of `N` insertions into
an initially empty buffer: the fill count is `N` when `N ≤ C` and exactly
`C` when `N > C`, never exceeding the capacity; every one of the newest `C`
transitions sits in the slot its index determines modulo `C`; and every
stored value is one of the newest `C` transitions (the oldest `N - C` are
evicted). -/
theorem buffer_keeps_newest {α : Type} (f : ℕ → α) (C N : ℕ) (hC : 0 < C) :
    (N ≤ C → (ReplayBuffer.addSeq f N (ReplayBuffer.empty α C)).size = N) ∧
    (C < N → (ReplayBuffer.addSeq f N (ReplayBuffer.empty α C)).size = C) ∧
    (ReplayBuffer.addSeq f N (ReplayBuffer.empty α C)).size ≤ C ∧
    (∀ j, j < N → N ≤ j + C →
      (ReplayBuffer.addSeq f N (ReplayBuffer.empty α C)).store (j % C) = some (f j)) ∧
    (∀ i v, (ReplayBuffer.addSeq f N (ReplayBuffer.empty α C)).store i = some v →
      ∃ j, j < N ∧ N ≤ j + C ∧ j % C = i ∧ v = f j) := by
  obtain ⟨-, -, hsize, hfwd, hbwd⟩ := addSeq_invariant f C hC N
  exact ⟨fun h => by omega, fun h => by omega, by omega, hfwd, hbwd⟩

/-- Witness for C8, the spec's end-to-end scenario: capacity 10, 15 distinct
transitions `0..14` inserted; the fill count is 10, and slot `5 % 10` holds
transition 5 (the oldest survivor), slot `14 % 10` transition 14 (the
newest). -/
theorem buffer_keeps_newest_witness :
    (ReplayBuffer.addSeq (fun j => j) 15 (ReplayBuffer.empty ℕ 10)).size = 10 ∧
    (ReplayBuffer.addSeq (fun j => j) 15 (ReplayBuffer.empty ℕ 10)).store (5 % 10) =
      some 5 ∧
    (ReplayBuffer.addSeq (fun j => j) 15 (ReplayBuffer.empty ℕ 10)).store (14 % 10) =
      some 14 :=
  ⟨(buffer_keeps_newest (fun j => j) 10 15 (by norm_num)).2.1 (by norm_num),
    (buffer_keeps_newest (fun j => j) 10 15 (by norm_num)).2.2.2.1 5 (by norm_num)
      (by norm_num),
    (buffer_keeps_newest (fun j => j) 10 15 (by norm_num)).2.2.2.1 14 (by norm_num)
      (by norm_num)⟩

/-- The externally visible actions of `NNQAgent.train_test_eval`
(utils/nnq_agent.py lines 201-251). -/
inductive AgentAction
  | logGraph
  | loadCheckpoint
  | trainEpisode (episode : ℕ)
  | testEpisode (episode : ℕ)
  | saveCheckpoint
  | evaluatePhase
deriving DecidableEq

/-- The guard of the checkpoint load at the start of
`NNQAgent.train_test_eval` (utils/nnq_agent.py line 215): the source tests
`if load_ckpt:` where `load_ckpt` is the module-level function defined at
line 39 — a function object, always truthy in Python — instead of the
method's `load_cpkt` parameter, so the guard holds for either value of the
parameter. -/
def load_ckpt_guard (load_cpkt : Bool) : Bool := true

/-- `NNQAgent.train_test_eval` (utils/nnq_agent.py lines 201-251) as the
sequence of actions it performs: log the network graph, load the checkpoint
when the guard holds, run training episodes `1 .. total_train_episode - 1`
(`range(1, total_train_episode)`) with a test every `episode_per_test`
episodes and a save every `episode_per_save` episodes (each only when the
period is positive), one final save when `episode_per_save` is positive, and
the evaluation phase. -/
def train_test_eval (total_train_episode episode_per_test episode_per_save : ℕ)
    (load_cpkt : Bool) : List AgentAction :=
  [AgentAction.logGraph]
    ++ (if load_ckpt_guard load_cpkt then [AgentAction.loadCheckpoint] else [])
    ++ ((List.range' 1 (total_train_episode - 1)).flatMap (fun episode =>
          [AgentAction.trainEpisode episode]
            ++ (if 0 < episode_per_test ∧ episode % episode_per_test = 0
                then [AgentAction.testEpisode episode] else [])
            ++ (if 0 < episode_per_save ∧ episode % episode_per_save = 0
                then [AgentAction.saveCheckpoint] else [])))
    ++ (if 0 < episode_per_save then [AgentAction.saveCheckpoint] else [])
    ++ [AgentAction.evaluatePhase]

/-- C9: `train_test_eval` performs the checkpoint load even when called with
`load_cpkt = false`; indeed its whole action sequence does not depend on the
`load_cpkt` argument at all. -/
theorem load_runs_regardless_of_parameter
    (total_train_episode episode_per_test episode_per_save : ℕ) :
    AgentAction.loadCheckpoint ∈
      train_test_eval total_train_episode episode_per_test episode_per_save false ∧
    train_test_eval total_train_episode episode_per_test episode_per_save false =
      train_test_eval total_train_episode episode_per_test episode_per_save true := by
  constructor
  · simp [train_test_eval, load_ckpt_guard]
  · rfl

/-- An 80x80 preprocessed screen frame: `preprocess` resizes the RGB screen
to `frame_size = (80, 80)` and grayscales it (flappybird_wrapper.py lines
41-47); the two `Fin 80` indexes carry the frame shape in the type. -/
def Frame : Type := Fin 80 → Fin 80 → ℚ

/-- The all-zero frame `np.zeros(frame_size)`. -/
def emptyFrame : Frame := fun _ _ => 0

/-- The state of a `FlappyBirdWrapper` with the default
`stack_num = 4, frame_size = (80, 80)` configuration generalized over
`stack_num`: `obs` is the kept frame stack `self.obs`; the pygame/PLE game
side is abstracted into oracle streams over an abstract game clock `time` —
`screens t` is the preprocessed screen, `rewards t` the reward of acting at
`t`, and `over t` the game-over flag. -/
structure FlappyBirdWrapper where
  stack_num : ℕ
  obs : List Frame
  time : ℕ
  screens : ℕ → Frame
  rewards : ℕ → ℚ
  over : ℕ → Bool

/-- The constructor (flappybird_wrapper.py lines 38-39): the initial
observation stack is `stack_num` copies of the empty frame. -/
def FlappyBirdWrapper.init (stack_num : ℕ) (screens : ℕ → Frame)
    (rewards : ℕ → ℚ) (over : ℕ → Bool) : FlappyBirdWrapper :=
  { stack_num := stack_num, obs := List.replicate stack_num emptyFrame,
    time := 0, screens := screens, rewards := rewards, over := over }

/-- `_get_obs` (flappybird_wrapper.py lines 49-53): read and preprocess the
current screen, drop the oldest frame of `self.obs` and append the new frame
as the last one, store and return the result. -/
def FlappyBirdWrapper.get_obs (w : FlappyBirdWrapper) :
    List Frame × FlappyBirdWrapper :=
  let obs := w.obs.drop 1 ++ [w.screens w.time]
  (obs, { w with obs := obs })

/-- `step` (flappybird_wrapper.py lines 55-59): act in the game (advancing
the game clock and collecting the reward), then `_get_obs`, then read the
game-over flag. -/
def FlappyBirdWrapper.step (w : FlappyBirdWrapper) (action : ℕ) :
    (List Frame × ℚ × Bool) × FlappyBirdWrapper :=
  let reward := w.rewards w.time
  let w1 := { w with time := w.time + 1 }
  let r := w1.get_obs
  ((r.1, reward, r.2.over r.2.time), r.2)

/-- `reset` (flappybird_wrapper.py lines 61-63): reset the game (a fresh
game state, advancing the abstract clock) and return `_get_obs`; note the
frame stack itself is carried over, only its oldest frame is dropped. -/
def FlappyBirdWrapper.reset (w : FlappyBirdWrapper) :
    List Frame × FlappyBirdWrapper :=
  let w1 := { w with time := w.time + 1 }
  w1.get_obs

/-- C10: when the kept stack has `stack_num ≥ 1` frames, the observation
returned by `step` (and by `reset`) is the previous observation with its
oldest frame dropped and the newly preprocessed 80x80 screen frame appended
last, it again has `stack_num` frames (so shape `(stack_num, 80, 80)`, the
frame shape being carried by the `Frame` type), the new stack is stored back
in the state, and the constructor establishes the `stack_num`-frame
invariant. -/
theorem obs_stacking (w : FlappyBirdWrapper) (action : ℕ)
    (hlen : w.obs.length = w.stack_num) (hs : 1 ≤ w.stack_num) :
    ((w.step action).1).1 = w.obs.drop 1 ++ [w.screens (w.time + 1)] ∧
    ((w.step action).1).1.length = w.stack_num ∧
    ((w.step action).2).obs = ((w.step action).1).1 ∧
    (w.reset).1 = w.obs.drop 1 ++ [w.screens (w.time + 1)] ∧
    (w.reset).1.length = w.stack_num ∧
    (∀ n scr rw go, (FlappyBirdWrapper.init n scr rw go).obs.length = n) := by
  refine ⟨rfl, ?_, rfl, rfl, ?_, fun n scr rw go => by
    simp [FlappyBirdWrapper.init]⟩ <;>
  · show (w.obs.drop 1 ++ [w.screens (w.time + 1)]).length = w.stack_num
    simp only [List.length_append, List.length_drop, List.length_singleton]
    omega

/-- Witness for C10 at a concrete wrapper: `stack_num = 2`, constant zero
screen oracle; both returned observations keep 2 frames. -/
theorem obs_stacking_witness :
    (((FlappyBirdWrapper.init 2 (fun _ => emptyFrame) (fun _ => 0)
          (fun _ => false)).step 0).1).1.length =
        (FlappyBirdWrapper.init 2 (fun _ => emptyFrame) (fun _ => 0)
          (fun _ => false)).stack_num ∧
      ((FlappyBirdWrapper.init 2 (fun _ => emptyFrame) (fun _ => 0)
          (fun _ => false)).reset).1.length =
        (FlappyBirdWrapper.init 2 (fun _ => emptyFrame) (fun _ => 0)
          (fun _ => false)).stack_num :=
  ⟨(obs_stacking (FlappyBirdWrapper.init 2 (fun _ => emptyFrame) (fun _ => 0)
      (fun _ => false)) 0 (by simp [FlappyBirdWrapper.init])
      (by norm_num [FlappyBirdWrapper.init])).2.1,
    (obs_stacking (FlappyBirdWrapper.init 2 (fun _ => emptyFrame) (fun _ => 0)
      (fun _ => false)) 0 (by simp [FlappyBirdWrapper.init])
      (by norm_num [FlappyBirdWrapper.init])).2.2.2.2.1⟩

end RLCode
